import Mathlib

/-!
Verification development for the `ShippingProfileService` of
`src/packages/medusa/src/services/shipping-profile.js`.

The service is embedded shallowly:

* The external Mongo-style document store (spec §6) is modelled as a
  `DocStore`: the list of stored profile documents plus, for each store
  operation the service issues (`find`, `findOne`, `updateOne`, `deleteOne`),
  an optional pending fault.  When the fault field is `some msg` the
  operation rejects with that message, mirroring a rejected promise; when it
  is `none` the operation succeeds with Mongo first-match semantics.
* The sibling collaborators (spec §6) are modelled by the data the service
  reads from them: the product collaborator as a list of product records, and
  the shipping-option collaborator as a list of option records together with
  a `validateCartOption` function passed explicitly.
* `async`/`await` with exceptions becomes explicit `Except` threading; a
  mutation of the live store becomes state passing of the `DocStore`.
* JavaScript dynamic behaviour that the source relies on is made explicit:
  truthiness of values (`truthy`, `foundTruthy`) and `Array.prototype.reduce`
  without an initial value (`jsReduceConcatNoInit`), which per ECMA-262 uses
  the first array element as the initial accumulator and throws a TypeError
  on an empty array.
-/

namespace Medusa

/-- Error values thrown by the service: the four `MedusaError` types used in
the source file, plus `jsError` for raw JavaScript runtime errors that the
source does not catch (rejected storage promises at call sites without a
`.catch`, and TypeErrors). -/
inductive Err where
  | invalid_argument (msg : String)
  | invalid_data (msg : String)
  | not_found (msg : String)
  | db_error (msg : String)
  | jsError (msg : String)
deriving DecidableEq

/-- A stored shipping-profile document (spec §3 data model). -/
structure Profile where
  _id : String
  name : String
  products : List String
  shipping_options : List String
  metadata : List (String × String) := []
deriving DecidableEq

/-- A product record held by the external product collaborator. -/
structure ProductRec where
  _id : String
deriving DecidableEq

/-- A shipping-option record held by the external shipping-option
collaborator. -/
structure ShippingOptionRec where
  _id : String
  name : String
deriving DecidableEq

/-- Modelled from the spec: the external document store of §6 (the
`profileModel_` collaborator, not under `src/`).  It holds the profile
documents and, per store operation used by the service, an optional pending
fault making that operation reject with the given message. -/
structure DocStore where
  docs : List Profile
  findFault : Option String := none
  findOneFault : Option String := none
  updateOneFault : Option String := none
  deleteOneFault : Option String := none
deriving DecidableEq

/-- Selectors the service passes to `profileModel_.find` (spec §6: equality
and `$in`-style membership predicates). -/
inductive Selector where
  | byShippingOption (optionId : String)
  | byProductsIn (productIds : List String)
deriving DecidableEq

/-- Mongo matching semantics for the two selector shapes used by the service:
`{ shipping_options: x }` matches documents whose array field contains `x`;
`{ products: { $in: l } }` matches documents whose array field shares an
element with `l`. -/
def evalSelector : Selector → Profile → Bool
  | Selector.byShippingOption x, d => d.shipping_options.contains x
  | Selector.byProductsIn pids, d => d.products.any (fun p => pids.contains p)

/-- Mongo `updateOne` touches the first matching document only. -/
def updateFirst (p : Profile → Bool) (f : Profile → Profile) :
    List Profile → List Profile
  | [] => []
  | d :: ds => if p d then f d :: ds else d :: updateFirst p f ds

/-- Store `updateOne` restricted to a `{ _id: selId }` selector, which is the
only selector shape the service uses for updates.  Errors are the raw
rejection message; each call site wraps or propagates it as the source does. -/
def updateOneDoc (st : DocStore) (selId : String) (f : Profile → Profile) :
    Except String DocStore :=
  match st.updateOneFault with
  | some m => Except.error m
  | none =>
      Except.ok { st with docs := updateFirst (fun d => d._id == selId) f st.docs }

/-- Mongo `$push` patch on the `products` field: append the value. -/
def pushProducts (x : String) (d : Profile) : Profile :=
  { d with products := d.products ++ [x] }

/-- Mongo `$pull` patch on the `products` field: remove every matching
element. -/
def pullProducts (x : String) (d : Profile) : Profile :=
  { d with products := d.products.filter (fun p => p != x) }

/-- Mongo `$push` patch on the `shipping_options` field. -/
def pushShippingOptions (x : String) (d : Profile) : Profile :=
  { d with shipping_options := d.shipping_options ++ [x] }

/-- Mongo `$pull` patch on the `shipping_options` field. -/
def pullShippingOptions (x : String) (d : Profile) : Profile :=
  { d with shipping_options := d.shipping_options.filter (fun o => o != x) }

/-- JavaScript truthiness of a string: only `""` is falsy. -/
def strTruthy (s : String) : Bool := !(s == "")

/-- Truthiness of the result of `Array.prototype.find`: `undefined` (no
match) is falsy, a found string is truthy unless it is `""`. -/
def foundTruthy : Option String → Bool
  | none => false
  | some s => strTruthy s

/-- Modelled from the spec: the `Validator.objectId()` check from
`medusa-core-utils` is not under `src/`; per the spec a well-formed
identifier is one castable to a Mongo ObjectId, i.e. a 24-character
hexadecimal string. -/
def isObjectIdLike (s : String) : Bool :=
  s.length == 24 &&
    s.toList.all (fun c =>
      c.isDigit || (('a' ≤ c && c ≤ 'f') || ('A' ≤ c && c ≤ 'F')))

/-- Modelled from the spec: the product collaborator's `retrieve`, which
fails if no product has the given id (spec §6). -/
def productRetrieve (prodSvc : List ProductRec) (productId : String) :
    Except Err ProductRec :=
  match prodSvc.find? (fun r => r._id == productId) with
  | some r => Except.ok r
  | none => Except.error (Err.not_found ("Product with " ++ productId ++ " was not found"))

/-- Modelled from the spec: the shipping-option collaborator's `retrieve`,
which fails if no option has the given id (spec §6). -/
def soRetrieve (soSvc : List ShippingOptionRec) (optionId : String) :
    Except Err ShippingOptionRec :=
  match soSvc.find? (fun r => r._id == optionId) with
  | some r => Except.ok r
  | none => Except.error (Err.not_found ("Shipping Option with " ++ optionId ++ " was not found"))

namespace ShippingProfileService

/-- `validateId_(rawId)`: validates the id with `Validator.objectId()` and
throws `INVALID_ARGUMENT` if the cast fails. -/
def validateId_ (rawId : String) : Except Err String :=
  if isObjectIdLike rawId then Except.ok rawId
  else Except.error (Err.invalid_argument "The profileId could not be casted to an ObjectId")

/-- `list(selector)`: `profileModel_.find(selector)`, with no `.catch`, so a
storage rejection propagates raw. -/
def list (st : DocStore) (selector : Selector) : Except Err (List Profile) :=
  match st.findFault with
  | some m => Except.error (Err.jsError m)
  | none => Except.ok (st.docs.filter (evalSelector selector))

/-- `retrieve(profileId)`: validate the id, `findOne({ _id })` with a
`.catch` wrapping the cause in `DB_ERROR`, then `NOT_FOUND` if no document
matched. -/
def retrieve (st : DocStore) (profileId : String) : Except Err Profile :=
  match validateId_ profileId with
  | Except.error e => Except.error e
  | Except.ok validatedId =>
    match st.findOneFault with
    | some m => Except.error (Err.db_error m)
    | none =>
      match st.docs.find? (fun d => d._id == validatedId) with
      | none =>
          Except.error (Err.not_found ("Shipping Profile with " ++ profileId ++ " was not found"))
      | some profile => Except.ok profile

end ShippingProfileService

/-- JavaScript values as far as `update`'s field guards inspect them: the
guards only test truthiness and the payload is otherwise forwarded verbatim,
so arrays and objects are kept atomic. -/
inductive JsLite where
  | jsUndefined
  | jsNull
  | jsBool (b : Bool)
  | jsNum (n : Int)
  | jsStr (s : String)
  | jsArr
  | jsObj
deriving DecidableEq

/-- JavaScript truthiness: `undefined`, `null`, `false`, `0` and `""` are
falsy; everything else (including any array or object) is truthy. -/
def truthy : JsLite → Bool
  | JsLite.jsUndefined => false
  | JsLite.jsNull => false
  | JsLite.jsBool b => b
  | JsLite.jsNum n => !(n == 0)
  | JsLite.jsStr s => strTruthy s
  | JsLite.jsArr => true
  | JsLite.jsObj => true

/-- The update object passed to `update(profileId, update)`.  A field the
caller did not supply reads as `undefined`; `rest` stands for any further
fields (e.g. `name`) that the guards never inspect. -/
structure UpdatePayload where
  metadata : JsLite := JsLite.jsUndefined
  products : JsLite := JsLite.jsUndefined
  shipping_options : JsLite := JsLite.jsUndefined
  rest : List (String × JsLite) := []
deriving DecidableEq

/-- The single storage call `update` or `setMetadata` issues when its guards
pass.  The source returns the `updateOne` promise directly, so these two
operations are embedded as the call they hand to the document store. -/
inductive StorageCall where
  | updateSet (selectorId : String) (patch : UpdatePayload) (runValidators : Bool)
  | updateSetKey (selectorId : String) (keyPath : String) (value : JsLite)
deriving DecidableEq

/-- A cart line item's `content` field: either a single object carrying a
`product` reference or an array of such objects (spec §4.2 step 1). -/
structure ContentEntry where
  product : ProductRec
deriving DecidableEq

inductive LineContent where
  | contentObj (entry : ContentEntry)
  | contentArr (entries : List ContentEntry)
deriving DecidableEq

structure LineItem where
  content : LineContent
deriving DecidableEq

structure Cart where
  items : List LineItem
deriving DecidableEq

/-- Accumulator of `Array.prototype.reduce` without an initial value: per
ECMA-262 the first array element — here a profile document — seeds the
accumulator; only a genuine array supports `.concat`/`.map`. -/
inductive ReduceAcc where
  | profileVal (p : Profile)
  | optIds (ids : List String)
deriving DecidableEq

def reduceEmptyMsg : String :=
  "TypeError: Reduce of empty array with no initial value"

def concatNotFunctionMsg : String :=
  "TypeError: acc.concat is not a function"

def mapNotFunctionMsg : String :=
  "TypeError: optionIds.map is not a function"

/-- One step of `(acc, next) => acc.concat(next.shipping_options)`: a profile
document in accumulator position has no `.concat` method. -/
def jsConcatSO (acc : ReduceAcc) (next : Profile) : Except Err ReduceAcc :=
  match acc with
  | ReduceAcc.profileVal _ => Except.error (Err.jsError concatNotFunctionMsg)
  | ReduceAcc.optIds ids => Except.ok (ReduceAcc.optIds (ids ++ next.shipping_options))

/-- `profiles.reduce((acc, next) => acc.concat(next.shipping_options))` with
no initial value: throws on an empty array, otherwise folds from the first
element. -/
def jsReduceConcatNoInit : List Profile → Except Err ReduceAcc
  | [] => Except.error (Err.jsError reduceEmptyMsg)
  | p :: ps => ps.foldlM jsConcatSO (ReduceAcc.profileVal p)

namespace ShippingProfileService

/-- `update(profileId, update)`: validate the id, reject `metadata`,
`products` and `shipping_options` fields with `INVALID_DATA`, otherwise
return the `updateOne({ _id }, { $set: update }, { runValidators: true })`
storage call.  An error return means no storage call is issued, so the
stored profile is untouched. -/
def update (profileId : String) (u : UpdatePayload) : Except Err StorageCall :=
  match validateId_ profileId with
  | Except.error e => Except.error e
  | Except.ok validatedId =>
    if truthy u.metadata then
      Except.error (Err.invalid_data "Use setMetadata to update metadata fields")
    else if truthy u.products then
      Except.error (Err.invalid_data "Use addProduct, removeProduct to update the products field")
    else if truthy u.shipping_options then
      Except.error
        (Err.invalid_data
          "Use addShippingOption, removeShippingOption to update the shipping_options field")
    else Except.ok (StorageCall.updateSet validatedId u true)

/-- `setMetadata(profileId, key, value)`: validate the id, require a string
key (`INVALID_ARGUMENT` otherwise), then return the
`updateOne({ _id }, { $set: { ["metadata." + key]: value } })` storage
call. -/
def setMetadata (profileId : String) (key : JsLite) (value : JsLite) :
    Except Err StorageCall :=
  match validateId_ profileId with
  | Except.error e => Except.error e
  | Except.ok validatedId =>
    match key with
    | JsLite.jsStr s =>
        Except.ok (StorageCall.updateSetKey validatedId ("metadata." ++ s) value)
    | _ =>
        Except.error
          (Err.invalid_argument "Key type is invalid. Metadata keys must be strings")

/-- `delete(profileId)`: try to retrieve; ANY retrieval error is caught and
turned into a resolved no-op (the source's `try/catch` has no error-type
test), otherwise `deleteOne({ _id: profile._id })` with a `.catch` wrapping
the cause in `DB_ERROR`. -/
def delete (st : DocStore) (profileId : String) : Except Err DocStore :=
  match retrieve st profileId with
  | Except.error _ => Except.ok st
  | Except.ok profile =>
    match st.deleteOneFault with
    | some m => Except.error (Err.db_error m)
    | none =>
        Except.ok { st with docs := st.docs.eraseP (fun d => d._id == profile._id) }

/-- `addProduct(profileId, productId)`: retrieve the profile and the product,
no-op when `profile.products.find(p => p === product._id)` is truthy,
otherwise `updateOne({ _id: profile._id }, { $push: { products:
product._id } })` (no `.catch`: a storage rejection propagates raw). -/
def addProduct (prodSvc : List ProductRec) (st : DocStore)
    (profileId productId : String) : Except Err DocStore :=
  match retrieve st profileId with
  | Except.error e => Except.error e
  | Except.ok profile =>
    match productRetrieve prodSvc productId with
    | Except.error e => Except.error e
    | Except.ok product =>
      if foundTruthy (profile.products.find? (fun p => p == product._id)) then
        Except.ok st
      else
        match updateOneDoc st profile._id (pushProducts product._id) with
        | Except.error m => Except.error (Err.jsError m)
        | Except.ok st1 => Except.ok st1

/-- `removeProduct(profileId, productId)`: retrieve the profile, no-op when
`profile.products.find(p => p === productId)` is falsy, otherwise
`updateOne({ _id: profile._id }, { $pull: { products: productId } })`
(`$pull` removes every matching element). -/
def removeProduct (st : DocStore) (profileId productId : String) :
    Except Err DocStore :=
  match retrieve st profileId with
  | Except.error e => Except.error e
  | Except.ok profile =>
    if foundTruthy (profile.products.find? (fun p => p == productId)) then
      match updateOneDoc st profile._id (pullProducts productId) with
      | Except.error m => Except.error (Err.jsError m)
      | Except.ok st1 => Except.ok st1
    else Except.ok st

/-- `removeShippingOption(profileId, optionId)`: retrieve the profile (only
to validate existence), then unconditionally
`updateOne({ _id: profileId }, { $pull: { shipping_options: optionId } })`. -/
def removeShippingOption (st : DocStore) (profileId optionId : String) :
    Except Err DocStore :=
  match retrieve st profileId with
  | Except.error e => Except.error e
  | Except.ok _profile =>
    match updateOneDoc st profileId (pullShippingOptions optionId) with
    | Except.error m => Except.error (Err.jsError m)
    | Except.ok st1 => Except.ok st1

/-- `addShippingOption(profileId, optionId)`: retrieve the profile and the
option, no-op when the option is already in this profile, otherwise list the
profiles currently holding the option, detach it from the first such profile
via `removeShippingOption`, and finally
`updateOne({ _id: profileId }, { $push: { shipping_options:
shippingOption._id } })`. -/
def addShippingOption (soSvc : List ShippingOptionRec) (st : DocStore)
    (profileId optionId : String) : Except Err DocStore :=
  match retrieve st profileId with
  | Except.error e => Except.error e
  | Except.ok profile =>
    match soRetrieve soSvc optionId with
    | Except.error e => Except.error e
    | Except.ok shippingOption =>
      if foundTruthy (profile.shipping_options.find? (fun o => o == shippingOption._id)) then
        Except.ok st
      else
        match list st (Selector.byShippingOption shippingOption._id) with
        | Except.error e => Except.error e
        | Except.ok profiles =>
          match (match profiles with
                 | [] => Except.ok st
                 | p0 :: _ => removeShippingOption st p0._id shippingOption._id) with
          | Except.error e => Except.error e
          | Except.ok st1 =>
            match updateOneDoc st1 profileId (pushShippingOptions shippingOption._id) with
            | Except.error m => Except.error (Err.jsError m)
            | Except.ok st2 => Except.ok st2

/-- Body of `acc.push(product._id)` guarded by `!acc.includes(product._id)`
in `getProductsInCart_`. -/
def pushIfAbsent (acc : List String) (pid : String) : List String :=
  if acc.contains pid then acc else acc ++ [pid]

/-- `getProductsInCart_(cart)`: reduce over the cart's line items with `[]`
as initial accumulator, handling an array-shaped `content` by iterating its
entries and an object-shaped `content` directly. -/
def getProductsInCart_ (cart : Cart) : List String :=
  cart.items.foldl
    (fun acc next =>
      match next.content with
      | LineContent.contentArr entries =>
          entries.foldl (fun a e => pushIfAbsent a e.product._id) acc
      | LineContent.contentObj e => pushIfAbsent acc e.product._id)
    []

/-- `fetchCartOptions(cart)`: derive the cart's product ids, list the
profiles whose `products` intersect them, combine their
`shipping_options` with a seedless `reduce`, validate each option id via the
collaborator's `validateCartOption` (a failed validation becomes `null`),
and keep the truthy results. -/
def fetchCartOptions (vco : String → Cart → Except String ShippingOptionRec)
    (st : DocStore) (cart : Cart) : Except Err (List ShippingOptionRec) :=
  match list st (Selector.byProductsIn (getProductsInCart_ cart)) with
  | Except.error e => Except.error e
  | Except.ok profiles =>
    match jsReduceConcatNoInit profiles with
    | Except.error e => Except.error e
    | Except.ok (ReduceAcc.profileVal _) => Except.error (Err.jsError mapNotFunctionMsg)
    | Except.ok (ReduceAcc.optIds optionIds) =>
        Except.ok ((optionIds.map (fun oId => (vco oId cart).toOption)).filterMap (fun o => o))

end ShippingProfileService

/-- Specification-side definition (spec §4.2 step 1): the product ids a
single line item references, in order. -/
def itemIds (item : LineItem) : List String :=
  match item.content with
  | LineContent.contentArr entries => entries.map (fun e => e.product._id)
  | LineContent.contentObj e => [e.product._id]

/-- Specification-side definition: all product ids referenced by the cart's
line items, with multiplicity, for comparison with the code's
`getProductsInCart_`. -/
def cartProductIds (cart : Cart) : List String :=
  (cart.items.map itemIds).flatten

namespace ShippingProfileService

theorem pushIfAbsent_nodup (acc : List String) (x : String) (h : acc.Nodup) :
    (pushIfAbsent acc x).Nodup := by
  unfold pushIfAbsent
  by_cases hx : x ∈ acc
  · simp [hx, h]
  · simp [hx, List.nodup_append, h]

theorem pushIfAbsent_mem (acc : List String) (x y : String) :
    y ∈ pushIfAbsent acc x ↔ y ∈ acc ∨ y = x := by
  unfold pushIfAbsent
  by_cases hx : x ∈ acc
  · simp only [List.contains, List.elem_eq_mem, hx, decide_eq_true_eq, if_pos]
    constructor
    · exact fun h => Or.inl h
    · rintro (h | rfl)
      · exact h
      · exact hx
  · simp [hx]

theorem foldl_pushIfAbsent_nodup (l : List String) (acc : List String)
    (h : acc.Nodup) : (l.foldl pushIfAbsent acc).Nodup := by
  induction l generalizing acc with
  | nil => exact h
  | cons x xs ih => exact ih _ (pushIfAbsent_nodup acc x h)

theorem foldl_pushIfAbsent_mem (l : List String) (acc : List String)
    (y : String) : y ∈ l.foldl pushIfAbsent acc ↔ y ∈ acc ∨ y ∈ l := by
  induction l generalizing acc with
  | nil => simp
  | cons x xs ih =>
      simp only [List.foldl_cons, ih, pushIfAbsent_mem, List.mem_cons]
      tauto

/-- The per-item step of `getProductsInCart_` folds `pushIfAbsent` over the
ids of that item. -/
theorem getProductsInCart_step (acc : List String) (next : LineItem) :
    (match next.content with
      | LineContent.contentArr entries =>
          entries.foldl (fun a e => pushIfAbsent a e.product._id) acc
      | LineContent.contentObj e => pushIfAbsent acc e.product._id)
      = (itemIds next).foldl pushIfAbsent acc := by
  cases hc : next.content with
  | contentArr entries =>
      simp [itemIds, hc, List.foldl_map]
  | contentObj e =>
      simp [itemIds, hc]

theorem getProductsInCart_eq_foldl (cart : Cart) :
    getProductsInCart_ cart
      = cart.items.foldl (fun acc next => (itemIds next).foldl pushIfAbsent acc) [] := by
  unfold getProductsInCart_
  congr 1
  funext acc next
  exact getProductsInCart_step acc next

theorem foldl_items_nodup (items : List LineItem) (acc : List String)
    (h : acc.Nodup) :
    (items.foldl (fun acc next => (itemIds next).foldl pushIfAbsent acc) acc).Nodup := by
  induction items generalizing acc with
  | nil => exact h
  | cons it its ih => exact ih _ (foldl_pushIfAbsent_nodup _ _ h)

theorem foldl_items_mem (items : List LineItem) (acc : List String) (y : String) :
    y ∈ items.foldl (fun acc next => (itemIds next).foldl pushIfAbsent acc) acc
      ↔ y ∈ acc ∨ ∃ it ∈ items, y ∈ itemIds it := by
  induction items generalizing acc with
  | nil => simp
  | cons it its ih =>
      simp only [List.foldl_cons, ih, foldl_pushIfAbsent_mem, List.mem_cons]
      constructor
      · rintro ((h | h) | ⟨j, hj, hy⟩)
        · exact Or.inl h
        · exact Or.inr ⟨it, Or.inl rfl, h⟩
        · exact Or.inr ⟨j, Or.inr hj, hy⟩
      · rintro (h | ⟨j, (rfl | hj), hy⟩)
        · exact Or.inl (Or.inl h)
        · exact Or.inl (Or.inr hy)
        · exact Or.inr ⟨j, hj, hy⟩

/-- C9: the derived product-id set of a cart has no duplicates and contains
exactly the product ids referenced by the cart's line items, under both
line-item shapes (single product reference, or an array of sub-items each
with its own product reference). -/
theorem getProductsInCart_distinct_and_complete (cart : Cart) :
    (getProductsInCart_ cart).Nodup ∧
      ∀ pid : String, pid ∈ getProductsInCart_ cart ↔ pid ∈ cartProductIds cart := by
  rw [getProductsInCart_eq_foldl]
  refine ⟨foldl_items_nodup _ _ List.nodup_nil, fun pid => ?_⟩
  rw [foldl_items_mem]
  simp [cartProductIds, List.mem_flatten]

end ShippingProfileService

/-! Concrete fixtures used by witnesses and failing-input evaluations.  All
identifiers are 24-character hexadecimal strings, i.e. well-formed
ObjectIds. -/

def exIdA : String := "aaaaaaaaaaaaaaaaaaaaaaaa"
def exIdB : String := "bbbbbbbbbbbbbbbbbbbbbbbb"
def exProdX : String := "111111111111111111111111"
def exProdY : String := "222222222222222222222222"
def exProdZ : String := "333333333333333333333333"
def exOptF : String := "f1f1f1f1f1f1f1f1f1f1f1f1"
def exOptG : String := "e2e2e2e2e2e2e2e2e2e2e2e2"

/-- Profile "default1" covering `exProdX` and holding option `exOptF`. -/
def exProfileA : Profile :=
  { _id := exIdA, name := "default1", products := [exProdX], shipping_options := [exOptF] }

/-- Profile "default2" covering `exProdY` and holding option `exOptG`. -/
def exProfileB : Profile :=
  { _id := exIdB, name := "default2", products := [exProdY], shipping_options := [exOptG] }

/-- Store with two profiles, each covering one product and holding one
option. -/
def exStore2 : DocStore := { docs := [exProfileA, exProfileB] }

/-- Store with one profile covering `exProdX` and holding the two options
`exOptF` and `exOptG`. -/
def exStore1 : DocStore :=
  { docs := [{ _id := exIdA, name := "default", products := [exProdX],
               shipping_options := [exOptF, exOptG] }] }

/-- Cart with one single-reference item for a product no profile covers. -/
def exCartNone : Cart :=
  { items := [{ content := LineContent.contentObj { product := { _id := exProdZ } } }] }

/-- Cart with one single-reference item for `exProdX`. -/
def exCartX : Cart :=
  { items := [{ content := LineContent.contentObj { product := { _id := exProdX } } }] }

/-- Cart referencing `exProdX` through a single-reference item and `exProdY`
through an array-shaped item. -/
def exCartXY : Cart :=
  { items := [{ content := LineContent.contentObj { product := { _id := exProdX } } },
              { content := LineContent.contentArr [{ product := { _id := exProdY } }] }] }

/-- Cart-option validation collaborator for the examples: option `exOptF`
("Free Shipping") is eligible for every cart, every other option fails
validation. -/
def exVco : String → Cart → Except String ShippingOptionRec :=
  fun oId _ =>
    if oId == exOptF then Except.ok { _id := exOptF, name := "Free Shipping" }
    else Except.error "requirement not satisfied"

namespace ShippingProfileService

/-- Supporting lemma: whenever the store's `find` itself does not fault,
`fetchCartOptions` throws a TypeError for EVERY cart and store — the
seedless `reduce` throws on zero matched profiles, and for one or more
matched profiles the first profile document becomes the accumulator, which
supports neither `.concat` nor `.map`. -/
theorem fetchCartOptions_always_type_errors
    (vco : String → Cart → Except String ShippingOptionRec)
    (st : DocStore) (cart : Cart) (hf : st.findFault = none) :
    ∃ m, fetchCartOptions vco st cart = Except.error (Err.jsError m) := by
  unfold fetchCartOptions list
  rw [hf]
  cases hfil : st.docs.filter (evalSelector (Selector.byProductsIn (getProductsInCart_ cart))) with
  | nil => exact ⟨reduceEmptyMsg, rfl⟩
  | cons p ps =>
      cases ps with
      | nil => exact ⟨mapNotFunctionMsg, rfl⟩
      | cons q qs => exact ⟨concatNotFunctionMsg, rfl⟩

/-- C1: failing-input evaluation.  For the cart whose only product matches no
profile, `fetchCartOptions` does not return an empty sequence: the seedless
`reduce` over the empty profile list throws a TypeError. -/
theorem fetchCartOptions_no_match_throws :
    fetchCartOptions exVco exStore2 exCartNone
      = Except.error (Err.jsError reduceEmptyMsg) := by rfl

/-- C2: failing-input evaluation.  For the cart matching the two profiles
"default1" and "default2" (one passing option each), `fetchCartOptions` does
not return the two resolved options: with no initial accumulator the first
profile document seeds the `reduce`, and `acc.concat` is not a function on a
profile document, so a TypeError is thrown before any validation. -/
theorem fetchCartOptions_two_profiles_throws :
    fetchCartOptions exVco exStore2 exCartXY
      = Except.error (Err.jsError concatNotFunctionMsg) := by rfl

/-- C6: failing-input evaluation.  For the cart matching exactly one profile
holding two candidate options — `exOptF` passing and `exOptG` failing
`validateCartOption` — `fetchCartOptions` does not return only the
succeeding option: the seedless `reduce` over a one-element profile list
returns the profile document itself, `optionIds.map` is not a function on
it, and a TypeError is thrown before any validation runs. -/
theorem fetchCartOptions_partial_validation_throws :
    fetchCartOptions exVco exStore1 exCartX
      = Except.error (Err.jsError mapNotFunctionMsg) := by rfl

/-- C7: a malformed identifier is rejected by `retrieve`, `update` and
`setMetadata` with `INVALID_ARGUMENT` — not with `NOT_FOUND` and not with a
storage fault — before any storage access: `retrieve` returns this error for
EVERY store state (including stores with pending faults, which shows no
storage operation ran), and `update`/`setMetadata` reject before issuing
their storage call. -/
theorem malformed_id_rejected (st : DocStore) (id : String) (u : UpdatePayload)
    (key value : JsLite) (h : isObjectIdLike id = false) :
    retrieve st id
        = Except.error (Err.invalid_argument "The profileId could not be casted to an ObjectId")
      ∧ update id u
        = Except.error (Err.invalid_argument "The profileId could not be casted to an ObjectId")
      ∧ setMetadata id key value
        = Except.error (Err.invalid_argument "The profileId could not be casted to an ObjectId") := by
  refine ⟨?_, ?_, ?_⟩
  · unfold retrieve validateId_
    rw [h]
    rfl
  · unfold update validateId_
    rw [h]
    rfl
  · unfold setMetadata validateId_
    rw [h]
    rfl

/-- C7 witness: the malformed id `"not-an-objectid"` is rejected with
`INVALID_ARGUMENT` by all three operations, here against a store with a
pending storage fault on every operation. -/
theorem malformed_id_rejected_witness :
    isObjectIdLike "not-an-objectid" = false ∧
    retrieve { docs := [exProfileA], findOneFault := some "io failure" } "not-an-objectid"
        = Except.error (Err.invalid_argument "The profileId could not be casted to an ObjectId")
      ∧ update "not-an-objectid" { metadata := JsLite.jsObj }
        = Except.error (Err.invalid_argument "The profileId could not be casted to an ObjectId")
      ∧ setMetadata "not-an-objectid" (JsLite.jsNum 3) JsLite.jsNull
        = Except.error (Err.invalid_argument "The profileId could not be casted to an ObjectId") :=
  ⟨by rfl,
   malformed_id_rejected { docs := [exProfileA], findOneFault := some "io failure" }
     "not-an-objectid" { metadata := JsLite.jsObj } (JsLite.jsNum 3) JsLite.jsNull (by rfl)⟩

/-- C8: for a well-formed id, `update` fails with `INVALID_DATA` whenever the
supplied `metadata`, `products` or `shipping_options` field is truthy (an
object or a non-empty array is always truthy); an error return means the
storage call is never issued, so the stored profile is unchanged.  The first
conjunct is the claim; the remaining three give the exact error of each
guard in the order the source checks them. -/
theorem update_guarded_fields (id : String) (u : UpdatePayload)
    (hid : isObjectIdLike id = true) :
    ((truthy u.metadata = true ∨ truthy u.products = true ∨ truthy u.shipping_options = true) →
        ∃ m, update id u = Except.error (Err.invalid_data m))
      ∧ (truthy u.metadata = true →
          update id u = Except.error (Err.invalid_data "Use setMetadata to update metadata fields"))
      ∧ (truthy u.metadata = false → truthy u.products = true →
          update id u
            = Except.error (Err.invalid_data "Use addProduct, removeProduct to update the products field"))
      ∧ (truthy u.metadata = false → truthy u.products = false →
          truthy u.shipping_options = true →
          update id u
            = Except.error
                (Err.invalid_data
                  "Use addShippingOption, removeShippingOption to update the shipping_options field")) := by
  have hmeta : ∀ hm : truthy u.metadata = true,
      update id u = Except.error (Err.invalid_data "Use setMetadata to update metadata fields") := by
    intro hm
    unfold update validateId_
    rw [hid, hm]
    rfl
  have hprod : ∀ (_ : truthy u.metadata = false) (_ : truthy u.products = true),
      update id u
        = Except.error (Err.invalid_data "Use addProduct, removeProduct to update the products field") := by
    intro hm hp
    unfold update validateId_
    rw [hid, hm, hp]
    rfl
  have hso : ∀ (_ : truthy u.metadata = false) (_ : truthy u.products = false)
      (_ : truthy u.shipping_options = true),
      update id u
        = Except.error
            (Err.invalid_data
              "Use addShippingOption, removeShippingOption to update the shipping_options field") := by
    intro hm hp hs
    unfold update validateId_
    rw [hid, hm, hp, hs]
    rfl
  refine ⟨?_, hmeta, hprod, hso⟩
  intro hcase
  cases hm : truthy u.metadata with
  | true => exact ⟨_, hmeta hm⟩
  | false =>
    cases hp : truthy u.products with
    | true => exact ⟨_, hprod hm hp⟩
    | false =>
      cases hs : truthy u.shipping_options with
      | true => exact ⟨_, hso hm hp hs⟩
      | false =>
          rw [hm, hp, hs] at hcase
          rcases hcase with h | h | h <;> exact absurd h (by simp)

/-- C8 witness: against the well-formed id `exIdA`, each of
`update(id, {metadata: {...}})`, `update(id, {products: [...]})` and
`update(id, {shipping_options: [...]})` fails with `INVALID_DATA`. -/
theorem update_guarded_fields_witness :
    update exIdA { metadata := JsLite.jsObj }
        = Except.error (Err.invalid_data "Use setMetadata to update metadata fields")
      ∧ update exIdA { products := JsLite.jsArr }
        = Except.error (Err.invalid_data "Use addProduct, removeProduct to update the products field")
      ∧ update exIdA { shipping_options := JsLite.jsArr }
        = Except.error
            (Err.invalid_data
              "Use addShippingOption, removeShippingOption to update the shipping_options field") :=
  ⟨(update_guarded_fields exIdA { metadata := JsLite.jsObj } (by rfl)).2.1 (by rfl),
   (update_guarded_fields exIdA { products := JsLite.jsArr } (by rfl)).2.2.1 (by rfl) (by rfl),
   (update_guarded_fields exIdA { shipping_options := JsLite.jsArr } (by rfl)).2.2.2
     (by rfl) (by rfl) (by rfl)⟩

/-- C10: `update`'s guards test only truthiness, so for every well-formed id
a payload whose `metadata`, `products` and `shipping_options` values are all
falsy (e.g. `null`, `0`, `""`) is not rejected with `INVALID_DATA`: the
payload — falsy values included — is passed through verbatim as the
`updateOne({ _id }, { $set: update }, { runValidators: true })` storage
call. -/
theorem update_falsy_passthrough (id : String) (u : UpdatePayload)
    (hid : isObjectIdLike id = true)
    (hm : truthy u.metadata = false) (hp : truthy u.products = false)
    (hs : truthy u.shipping_options = false) :
    update id u = Except.ok (StorageCall.updateSet id u true) := by
  unfold update validateId_
  rw [hid, hm, hp, hs]
  rfl

/-- C10 witness: `update(exIdA, {metadata: null, products: 0,
shipping_options: ""})` is accepted and the falsy values reach the storage
update unchanged. -/
theorem update_falsy_passthrough_witness :
    update exIdA
        { metadata := JsLite.jsNull, products := JsLite.jsNum 0,
          shipping_options := JsLite.jsStr "" }
      = Except.ok
          (StorageCall.updateSet exIdA
            { metadata := JsLite.jsNull, products := JsLite.jsNum 0,
              shipping_options := JsLite.jsStr "" }
            true) :=
  update_falsy_passthrough exIdA
    { metadata := JsLite.jsNull, products := JsLite.jsNum 0,
      shipping_options := JsLite.jsStr "" }
    (by rfl) (by rfl) (by rfl) (by rfl)

end ShippingProfileService

/-- Store holding `exProfileA` whose `findOne` operation has a pending
storage fault. -/
def exStoreFindOneFault : DocStore :=
  { docs := [exProfileA], findOneFault := some "connection lost" }

namespace ShippingProfileService

/-- C4 counterexample: with a pending storage fault on the retrieval step
(`findOne` rejects with "connection lost") and a perfectly well-formed id,
`delete` succeeds as a no-op — the storage fault is silently swallowed by
the catch-all around `retrieve` instead of being surfaced as a
`StorageError`, contradicting the claim that only the not-found case is
treated as a successful no-op. -/
theorem delete_swallows_retrieval_storage_fault :
    ShippingProfileService.delete exStoreFindOneFault exIdA
      = Except.ok exStoreFindOneFault := by rfl

/-- C4 amended: `delete` treats ANY failure of the retrieval step — not
found, malformed id, or an underlying storage fault during retrieval — as a
successful no-op; only a storage fault in the `deleteOne` step itself is
surfaced to the caller, as a `StorageError` (`DB_ERROR`) wrapping the cause;
when no fault occurs the first matching document is removed. -/
theorem delete_error_handling (st : DocStore) (profileId : String) :
    (∀ e : Err, retrieve st profileId = Except.error e →
        ShippingProfileService.delete st profileId = Except.ok st)
      ∧ (∀ (p : Profile) (m : String),
          retrieve st profileId = Except.ok p → st.deleteOneFault = some m →
          ShippingProfileService.delete st profileId = Except.error (Err.db_error m))
      ∧ (∀ p : Profile,
          retrieve st profileId = Except.ok p → st.deleteOneFault = none →
          ShippingProfileService.delete st profileId
            = Except.ok { st with docs := st.docs.eraseP (fun d => d._id == p._id) }) := by
  refine ⟨?_, ?_, ?_⟩
  · intro e he
    unfold ShippingProfileService.delete
    rw [he]
  · intro p m hp hm
    unfold ShippingProfileService.delete
    rw [hp, hm]
  · intro p hp hm
    unfold ShippingProfileService.delete
    rw [hp, hm]

/-- C4 witness for the amended claim: on a healthy store the profile is
removed, and on a store whose `deleteOne` rejects the fault is surfaced as
`DB_ERROR`. -/
theorem delete_error_handling_witness :
    ShippingProfileService.delete { docs := [exProfileA, exProfileB] } exIdA
        = Except.ok { docs := [exProfileB] }
      ∧ ShippingProfileService.delete
          { docs := [exProfileA], deleteOneFault := some "disk full" } exIdA
        = Except.error (Err.db_error "disk full") :=
  ⟨(delete_error_handling { docs := [exProfileA, exProfileB] } exIdA).2.2
      exProfileA (by rfl) (by rfl),
   (delete_error_handling { docs := [exProfileA], deleteOneFault := some "disk full" } exIdA).2.1
      exProfileA "disk full" (by rfl) (by rfl)⟩

end ShippingProfileService

/-! Helper lemmas about `updateFirst`, `find?` and counting, shared by the
membership-mutation proofs. -/

theorem find?_cons_true {α : Type} (p : α → Bool) (a : α) (l : List α)
    (h : p a = true) : List.find? p (a :: l) = some a := by
  simp only [List.find?, h]

theorem find?_cons_false {α : Type} (p : α → Bool) (a : α) (l : List α)
    (h : p a = false) : List.find? p (a :: l) = List.find? p l := by
  simp only [List.find?, h]

theorem updateFirst_cons (p : Profile → Bool) (f : Profile → Profile)
    (d : Profile) (ds : List Profile) :
    updateFirst p f (d :: ds) = if p d then f d :: ds else d :: updateFirst p f ds := rfl

theorem updateFirst_map_id (p : Profile → Bool) (f : Profile → Profile)
    (hf : ∀ d, (f d)._id = d._id) :
    ∀ l : List Profile, (updateFirst p f l).map Profile._id = l.map Profile._id
  | [] => rfl
  | d :: ds => by
      unfold updateFirst
      cases hp : p d with
      | true => simp [hp, hf d]
      | false => simp [hp, updateFirst_map_id p f hf ds]

theorem find?_updateFirst_self (t : String) (f : Profile → Profile)
    (hf : ∀ d, (f d)._id = d._id) :
    ∀ l : List Profile,
      (updateFirst (fun d => d._id == t) f l).find? (fun d => d._id == t)
        = Option.map f (l.find? (fun d => d._id == t))
  | [] => rfl
  | d :: ds => by
      rw [updateFirst_cons]
      cases hp : d._id == t with
      | true =>
          have hfd : ((f d)._id == t) = true := by rw [hf d]; exact hp
          simp only [hp, if_true]
          rw [find?_cons_true (fun d => d._id == t) (f d) ds hfd,
              find?_cons_true (fun d => d._id == t) d ds hp]
          rfl
      | false =>
          simp only [hp, Bool.false_eq_true, if_false]
          rw [find?_cons_false (fun d => d._id == t) d (updateFirst (fun d => d._id == t) f ds) hp,
              find?_cons_false (fun d => d._id == t) d ds hp]
          exact find?_updateFirst_self t f hf ds

theorem find?_updateFirst_other (t i : String) (f : Profile → Profile)
    (hf : ∀ d, (f d)._id = d._id) (hne : i ≠ t) :
    ∀ l : List Profile,
      (updateFirst (fun d => d._id == t) f l).find? (fun d => d._id == i)
        = l.find? (fun d => d._id == i)
  | [] => rfl
  | d :: ds => by
      rw [updateFirst_cons]
      cases hp : d._id == t with
      | true =>
          have hd : d._id = t := eq_of_beq hp
          have hdi : (d._id == i) = false := by
            rw [hd]
            exact beq_eq_false_iff_ne.2 (fun h => hne h.symm)
          have hfdi : ((f d)._id == i) = false := by rw [hf d]; exact hdi
          simp only [hp, if_true]
          rw [find?_cons_false (fun d => d._id == i) (f d) ds hfdi,
              find?_cons_false (fun d => d._id == i) d ds hdi]
      | false =>
          simp only [hp, Bool.false_eq_true, if_false]
          cases hdi : d._id == i with
          | true =>
              rw [find?_cons_true (fun d => d._id == i) d
                    (updateFirst (fun d => d._id == t) f ds) hdi,
                  find?_cons_true (fun d => d._id == i) d ds hdi]
          | false =>
              rw [find?_cons_false (fun d => d._id == i) d
                    (updateFirst (fun d => d._id == t) f ds) hdi,
                  find?_cons_false (fun d => d._id == i) d ds hdi]
              exact find?_updateFirst_other t i f hf hne ds

theorem updateFirst_decomp (p : Profile → Bool) (f : Profile → Profile) :
    ∀ (l : List Profile) (a : Profile), l.find? p = some a →
      ∃ l1 l2, l = l1 ++ a :: l2 ∧ updateFirst p f l = l1 ++ f a :: l2
  | [], a, h => by simp at h
  | d :: ds, a, h => by
      cases hp : p d with
      | true =>
          rw [find?_cons_true p d ds hp] at h
          injection h with h
          subst h
          refine ⟨[], ds, rfl, ?_⟩
          rw [updateFirst_cons]
          simp [hp]
      | false =>
          rw [find?_cons_false p d ds hp] at h
          obtain ⟨l1, l2, hl, hu⟩ := updateFirst_decomp p f ds a h
          refine ⟨d :: l1, l2, by simp [hl], ?_⟩
          rw [updateFirst_cons]
          simp [hp, hu]

theorem countP_le_one_unique {α : Type} (p : α → Bool) :
    ∀ l : List α, l.countP p ≤ 1 →
      ∀ x, x ∈ l → p x = true → ∀ y, y ∈ l → p y = true → x = y
  | [], _, x, hx, _, _, _, _ => absurd hx (List.not_mem_nil x)
  | a :: l, h, x, hx, hpx, y, hy, hpy => by
      rw [List.countP_cons] at h
      cases hpa : p a with
      | true =>
          rw [hpa] at h
          rw [if_pos rfl] at h
          have h0 : l.countP p = 0 := by omega
          have hall : ∀ z ∈ l, ¬ p z = true := List.countP_eq_zero.1 h0
          have hxa : x = a := by
            rcases List.mem_cons.1 hx with h' | h'
            · exact h'
            · exact absurd hpx (hall x h')
          have hya : y = a := by
            rcases List.mem_cons.1 hy with h' | h'
            · exact h'
            · exact absurd hpy (hall y h')
          rw [hxa, hya]
      | false =>
          rw [hpa] at h
          rw [if_neg Bool.false_ne_true] at h
          rcases List.mem_cons.1 hx with hxa | hxl
          · rw [hxa] at hpx
            rw [hpx] at hpa
            cases hpa
          · rcases List.mem_cons.1 hy with hya | hyl
            · rw [hya] at hpy
              rw [hpy] at hpa
              cases hpa
            · exact countP_le_one_unique p l (by omega) x hxl hpx y hyl hpy

theorem find?_keyed_self :
    ∀ l : List Profile, (l.map Profile._id).Nodup →
      ∀ d, d ∈ l → l.find? (fun x => x._id == d._id) = some d
  | [], _, d, hd => absurd hd (List.not_mem_nil d)
  | a :: l, hnd, d, hd => by
      rw [List.map_cons, List.nodup_cons] at hnd
      rcases List.mem_cons.1 hd with rfl | hdl
      · rw [find?_cons_true (fun x => x._id == d._id) d l (by simp)]
      · have hne : (a._id == d._id) = false := by
          refine beq_eq_false_iff_ne.2 (fun h => ?_)
          exact hnd.1 (h ▸ List.mem_map_of_mem Profile._id hdl)
        rw [find?_cons_false (fun x => x._id == d._id) a l hne,
            find?_keyed_self l hnd.2 d hdl]

/-- The truthiness check the source applies to `array.find(p => p === x)`:
for a non-empty id, truthy exactly when `x` is a member. -/
theorem foundTruthy_find? (l : List String) (x : String) (hx : x ≠ "") :
    foundTruthy (l.find? (fun p => p == x)) = true ↔ x ∈ l := by
  cases hf : l.find? (fun p => p == x) with
  | none =>
      simp only [foundTruthy]
      constructor
      · intro h
        cases h
      · intro hmem
        have := List.find?_eq_none.1 hf x hmem
        simp at this
  | some s =>
      have hps := List.find?_some hf
      have hs : s = x := eq_of_beq hps
      subst hs
      simp only [foundTruthy, strTruthy]
      constructor
      · intro _
        exact List.mem_of_find?_eq_some hf
      · intro _
        have hb : (s == "") = false := beq_eq_false_iff_ne.2 hx
        rw [hb]
        rfl

namespace ShippingProfileService

theorem retrieve_ok_inv (st : DocStore) (profileId : String) (profile : Profile)
    (h : retrieve st profileId = Except.ok profile) :
    isObjectIdLike profileId = true ∧ st.findOneFault = none ∧
      st.docs.find? (fun d => d._id == profileId) = some profile := by
  unfold retrieve validateId_ at h
  cases hid : isObjectIdLike profileId with
  | false => rw [hid] at h; simp at h
  | true =>
      rw [hid] at h
      simp only [if_true] at h
      cases hff : st.findOneFault with
      | some m => rw [hff] at h; simp at h
      | none =>
          rw [hff] at h
          cases hfind : st.docs.find? (fun d => d._id == profileId) with
          | none => rw [hfind] at h; simp at h
          | some p =>
              rw [hfind] at h
              injection h with h
              exact ⟨rfl, rfl, by rw [h]⟩

theorem retrieve_ok (st : DocStore) (profileId : String) (profile : Profile)
    (hid : isObjectIdLike profileId = true) (hff : st.findOneFault = none)
    (hfind : st.docs.find? (fun d => d._id == profileId) = some profile) :
    retrieve st profileId = Except.ok profile := by
  unfold retrieve validateId_
  rw [hid]
  simp only [if_true]
  rw [hff, hfind]

theorem updateOneDoc_ok_inv (st : DocStore) (selId : String) (f : Profile → Profile)
    (st1 : DocStore) (h : updateOneDoc st selId f = Except.ok st1) :
    st.updateOneFault = none ∧
      st1 = { st with docs := updateFirst (fun d => d._id == selId) f st.docs } := by
  unfold updateOneDoc at h
  cases hu : st.updateOneFault with
  | some m => rw [hu] at h; cases h
  | none =>
      rw [hu] at h
      injection h with h
      exact ⟨rfl, h.symm⟩

theorem productRetrieve_ok_inv (prodSvc : List ProductRec) (productId : String)
    (r : ProductRec) (h : productRetrieve prodSvc productId = Except.ok r) :
    r ∈ prodSvc ∧ r._id = productId := by
  unfold productRetrieve at h
  cases hf : prodSvc.find? (fun x => x._id == productId) with
  | none => rw [hf] at h; cases h
  | some r0 =>
      rw [hf] at h
      injection h with h
      subst h
      have h1 := List.find?_some hf
      exact ⟨List.mem_of_find?_eq_some hf, eq_of_beq h1⟩

theorem foundTruthy_find?_true (l : List String) (x : String)
    (h : foundTruthy (l.find? (fun p => p == x)) = true) : x ≠ "" ∧ x ∈ l := by
  cases hf : l.find? (fun p => p == x) with
  | none => rw [hf] at h; cases h
  | some s =>
      have h1 := List.find?_some hf
      have hs : s = x := eq_of_beq h1
      subst hs
      rw [hf] at h
      simp only [foundTruthy, strTruthy] at h
      refine ⟨fun he => ?_, List.mem_of_find?_eq_some hf⟩
      rw [he] at h
      simp at h

theorem addProduct_ok_inv (prodSvc : List ProductRec) (st : DocStore)
    (pid prid : String) (st1 : DocStore)
    (h : addProduct prodSvc st pid prid = Except.ok st1) :
    ∃ profile product,
      retrieve st pid = Except.ok profile ∧
      productRetrieve prodSvc prid = Except.ok product ∧
      ((foundTruthy (profile.products.find? (fun p => p == product._id)) = true ∧ st1 = st)
        ∨ (foundTruthy (profile.products.find? (fun p => p == product._id)) = false ∧
            st.updateOneFault = none ∧
            st1 = { st with docs := updateFirst (fun d => d._id == profile._id) (pushProducts product._id) st.docs })) := by
  unfold addProduct at h
  cases hr : retrieve st pid with
  | error e => rw [hr] at h; cases h
  | ok profile =>
      rw [hr] at h
      cases hp : productRetrieve prodSvc prid with
      | error e => rw [hp] at h; cases h
      | ok product =>
          rw [hp] at h
          dsimp only at h
          refine ⟨profile, product, rfl, rfl, ?_⟩
          cases hmem : foundTruthy (profile.products.find? (fun p => p == product._id)) with
          | true =>
              rw [hmem, if_pos rfl] at h
              injection h with h
              exact Or.inl ⟨rfl, h.symm⟩
          | false =>
              rw [hmem, if_neg Bool.false_ne_true] at h
              cases hu : updateOneDoc st profile._id (pushProducts product._id) with
              | error m => rw [hu] at h; cases h
              | ok st2 =>
                  rw [hu] at h
                  injection h with h
                  obtain ⟨hfault, hst2⟩ := updateOneDoc_ok_inv _ _ _ _ hu
                  exact Or.inr ⟨rfl, hfault, by rw [← h, hst2]⟩

theorem removeProduct_ok_inv (st : DocStore) (pid prid : String) (st1 : DocStore)
    (h : removeProduct st pid prid = Except.ok st1) :
    ∃ profile,
      retrieve st pid = Except.ok profile ∧
      ((foundTruthy (profile.products.find? (fun p => p == prid)) = false ∧ st1 = st)
        ∨ (foundTruthy (profile.products.find? (fun p => p == prid)) = true ∧
            st.updateOneFault = none ∧
            st1 = { st with docs := updateFirst (fun d => d._id == profile._id) (pullProducts prid) st.docs })) := by
  unfold removeProduct at h
  cases hr : retrieve st pid with
  | error e => rw [hr] at h; cases h
  | ok profile =>
      rw [hr] at h
      dsimp only at h
      refine ⟨profile, rfl, ?_⟩
      cases hmem : foundTruthy (profile.products.find? (fun p => p == prid)) with
      | false =>
          rw [hmem, if_neg Bool.false_ne_true] at h
          injection h with h
          exact Or.inl ⟨rfl, h.symm⟩
      | true =>
          rw [hmem, if_pos rfl] at h
          cases hu : updateOneDoc st profile._id (pullProducts prid) with
          | error m => rw [hu] at h; cases h
          | ok st2 =>
              rw [hu] at h
              injection h with h
              obtain ⟨hfault, hst2⟩ := updateOneDoc_ok_inv _ _ _ _ hu
              exact Or.inr ⟨rfl, hfault, by rw [← h, hst2]⟩

theorem addProduct_eval_noop (prodSvc : List ProductRec) (st : DocStore)
    (pid prid : String) (profile : Profile) (product : ProductRec)
    (hr : retrieve st pid = Except.ok profile)
    (hp : productRetrieve prodSvc prid = Except.ok product)
    (hmem : foundTruthy (profile.products.find? (fun p => p == product._id)) = true) :
    addProduct prodSvc st pid prid = Except.ok st := by
  unfold addProduct
  rw [hr, hp]
  simp only [hmem, if_true]

theorem removeProduct_eval_noop (st : DocStore) (pid prid : String)
    (profile : Profile)
    (hr : retrieve st pid = Except.ok profile)
    (hmem : foundTruthy (profile.products.find? (fun p => p == prid)) = false) :
    removeProduct st pid prid = Except.ok st := by
  unfold removeProduct
  rw [hr]
  simp only [hmem, Bool.false_eq_true, if_false]

/-- C5: membership mutation is idempotent and duplicate-free.  For every
store, profile id and product id: a second `addProduct` with the same
arguments leaves the state of the first unchanged; a second `removeProduct`
likewise; and `addProduct` never appends a duplicate product id (stores
whose documents have duplicate-free product lists keep that property).  The
hypothesis `hne` records that the external product collaborator returns
records with non-empty `_id`s (Mongo ObjectIds are never the empty string);
without it the JavaScript truthiness test `if (profile.products.find(...))`
would misread a found `""` as absent. -/
theorem addProduct_removeProduct_idempotent (prodSvc : List ProductRec)
    (st : DocStore) (pid prid : String)
    (hne : ∀ r ∈ prodSvc, r._id ≠ "") :
    (∀ st1, addProduct prodSvc st pid prid = Except.ok st1 →
        addProduct prodSvc st1 pid prid = Except.ok st1)
      ∧ (∀ st1, removeProduct st pid prid = Except.ok st1 →
          removeProduct st1 pid prid = Except.ok st1)
      ∧ (∀ st1, addProduct prodSvc st pid prid = Except.ok st1 →
          (∀ d, d ∈ st.docs → d.products.Nodup) →
          ∀ d, d ∈ st1.docs → d.products.Nodup) := by
  refine ⟨?_, ?_, ?_⟩
  · intro st1 h1
    obtain ⟨profile, product, hr, hp, hcase⟩ := addProduct_ok_inv prodSvc st pid prid st1 h1
    obtain ⟨hid, hff, hfind⟩ := retrieve_ok_inv st pid profile hr
    have hpid0 := List.find?_some hfind
    have hpid : profile._id = pid := eq_of_beq hpid0
    obtain ⟨hprodmem, hprodid⟩ := productRetrieve_ok_inv prodSvc prid product hp
    have hneid : product._id ≠ "" := hne product hprodmem
    rcases hcase with ⟨hmem, hst1⟩ | ⟨hmem, hfault, rfl⟩
    · rw [hst1]
      exact addProduct_eval_noop prodSvc st pid prid profile product hr hp hmem
    · rw [hpid]
      have hf' : ∀ d, (pushProducts product._id d)._id = d._id := fun d => rfl
      have hfind1 : (updateFirst (fun d => d._id == pid) (pushProducts product._id) st.docs).find?
          (fun d => d._id == pid) = some (pushProducts product._id profile) := by
        rw [find?_updateFirst_self pid (pushProducts product._id) hf' st.docs, hfind]
        rfl
      have hr1 : retrieve
          { st with docs := updateFirst (fun d => d._id == pid) (pushProducts product._id) st.docs }
          pid = Except.ok (pushProducts product._id profile) :=
        retrieve_ok _ pid _ hid hff hfind1
      have hmem1 : foundTruthy ((pushProducts product._id profile).products.find?
          (fun p => p == product._id)) = true :=
        (foundTruthy_find? _ _ hneid).2 (by simp [pushProducts])
      exact addProduct_eval_noop prodSvc _ pid prid _ product hr1 hp hmem1
  · intro st1 h1
    obtain ⟨profile, hr, hcase⟩ := removeProduct_ok_inv st pid prid st1 h1
    obtain ⟨hid, hff, hfind⟩ := retrieve_ok_inv st pid profile hr
    have hpid0 := List.find?_some hfind
    have hpid : profile._id = pid := eq_of_beq hpid0
    rcases hcase with ⟨hmem, hst1⟩ | ⟨hmem, hfault, rfl⟩
    · rw [hst1]
      exact removeProduct_eval_noop st pid prid profile hr hmem
    · rw [hpid]
      have hf' : ∀ d, (pullProducts prid d)._id = d._id := fun d => rfl
      have hfind1 : (updateFirst (fun d => d._id == pid) (pullProducts prid) st.docs).find?
          (fun d => d._id == pid) = some (pullProducts prid profile) := by
        rw [find?_updateFirst_self pid (pullProducts prid) hf' st.docs, hfind]
        rfl
      have hr1 : retrieve
          { st with docs := updateFirst (fun d => d._id == pid) (pullProducts prid) st.docs }
          pid = Except.ok (pullProducts prid profile) :=
        retrieve_ok _ pid _ hid hff hfind1
      have hnone : (pullProducts prid profile).products.find? (fun p => p == prid) = none := by
        rw [List.find?_eq_none]
        intro x hx
        have hxne := (List.mem_filter.1 hx).2
        intro hpx
        rw [eq_of_beq hpx] at hxne
        simp at hxne
      have hmem1 : foundTruthy ((pullProducts prid profile).products.find?
          (fun p => p == prid)) = false := by
        rw [hnone]
        rfl
      exact removeProduct_eval_noop _ pid prid _ hr1 hmem1
  · intro st1 h1 hnod d hd
    obtain ⟨profile, product, hr, hp, hcase⟩ := addProduct_ok_inv prodSvc st pid prid st1 h1
    rcases hcase with ⟨hmem, hst1⟩ | ⟨hmem, hfault, rfl⟩
    · exact hnod d (hst1 ▸ hd)
    · obtain ⟨hid, hff, hfind⟩ := retrieve_ok_inv st pid profile hr
      have hpid0 := List.find?_some hfind
      have hpid : profile._id = pid := eq_of_beq hpid0
      obtain ⟨hprodmem, hprodid⟩ := productRetrieve_ok_inv prodSvc prid product hp
      have hneid : product._id ≠ "" := hne product hprodmem
      have hnotmem : product._id ∉ profile.products := by
        intro hm
        have := (foundTruthy_find? profile.products product._id hneid).2 hm
        rw [hmem] at this
        cases this
      have hfindp : st.docs.find? (fun x => x._id == profile._id) = some profile := by
        rw [hpid]
        exact hfind
      obtain ⟨l1, l2, hl, hu⟩ :=
        updateFirst_decomp (fun x => x._id == profile._id) (pushProducts product._id)
          st.docs profile hfindp
      have hd' : d ∈ updateFirst (fun x => x._id == profile._id) (pushProducts product._id)
          st.docs := hd
      rw [hu] at hd'
      rcases List.mem_append.1 hd' with hd1 | hd2
      · exact hnod d (by rw [hl]; exact List.mem_append_left _ hd1)
      · rcases List.mem_cons.1 hd2 with rfl | hd3
        · have hprofmem : profile ∈ st.docs := by
            rw [hl]
            exact List.mem_append_right _ (List.mem_cons_self profile l2)
          have hpn : profile.products.Nodup := hnod profile hprofmem
          simp [pushProducts, List.nodup_append, hpn, hnotmem]
        · exact hnod d (by rw [hl]; exact List.mem_append_right _ (List.mem_cons_of_mem _ hd3))

/-- Product collaborator fixture holding `exProdX`. -/
def exProdSvc : List ProductRec := [{ _id := exProdX }]

/-- Store holding only profile "default2". -/
def exStoreB : DocStore := { docs := [exProfileB] }

/-- The store `exStoreB` after `exProdX` is added to profile "default2". -/
def exStoreBX : DocStore :=
  { docs := [{ _id := exIdB, name := "default2", products := [exProdY, exProdX],
               shipping_options := [exOptG] }] }

/-- C5 witness: on a concrete store a second `addProduct` of `exProdX` to
profile "default2" leaves the once-updated store unchanged, and a second
`removeProduct` leaves the once-pulled store unchanged. -/
theorem addProduct_removeProduct_idempotent_witness :
    addProduct exProdSvc exStoreBX exIdB exProdX = Except.ok exStoreBX
      ∧ removeProduct exStoreB exIdB exProdX = Except.ok exStoreB :=
  ⟨(addProduct_removeProduct_idempotent exProdSvc exStoreB exIdB exProdX
      (by decide)).1 exStoreBX (by rfl),
   (addProduct_removeProduct_idempotent exProdSvc exStoreBX exIdB exProdX
      (by decide)).2.1 exStoreB (by rfl)⟩

end ShippingProfileService

theorem contains_true_iff (l : List String) (x : String) :
    l.contains x = true ↔ x ∈ l := by
  simp [List.contains, List.elem_eq_mem]

theorem keyed_inj (l : List Profile) (hnd : (l.map Profile._id).Nodup)
    (x : Profile) (hx : x ∈ l) (y : Profile) (hy : y ∈ l)
    (heq : x._id = y._id) : x = y := by
  have h1 := find?_keyed_self l hnd x hx
  have h2 := find?_keyed_self l hnd y hy
  rw [heq] at h1
  rw [h2] at h1
  exact (Option.some.inj h1).symm

theorem id_mem_exists (l l' : List Profile)
    (hmap : l'.map Profile._id = l.map Profile._id)
    (d' : Profile) (hd' : d' ∈ l') : ∃ d ∈ l, d._id = d'._id := by
  have hmem : d'._id ∈ l.map Profile._id := by
    rw [← hmap]
    exact List.mem_map_of_mem Profile._id hd'
  obtain ⟨d, hd, hdid⟩ := List.mem_map.1 hmem
  exact ⟨d, hd, hdid⟩

theorem soRetrieve_ok_of_mem (soSvc : List ShippingOptionRec) (opt : String)
    (hso : ∃ so ∈ soSvc, so._id = opt) :
    ∃ r, soRetrieve soSvc opt = Except.ok r ∧ r._id = opt := by
  obtain ⟨so, hmem, hid⟩ := hso
  have hsome : (soSvc.find? (fun r => r._id == opt)).isSome :=
    List.find?_isSome.2 ⟨so, hmem, by rw [hid]; exact beq_self_eq_true opt⟩
  cases hf : soSvc.find? (fun r => r._id == opt) with
  | none => rw [hf] at hsome; cases hsome
  | some r =>
      have h1 := List.find?_some hf
      refine ⟨r, ?_, eq_of_beq h1⟩
      unfold soRetrieve
      rw [hf]

theorem find?_of_id_mem (l : List Profile) (P : String)
    (hP : ∃ d ∈ l, d._id = P) :
    ∃ pd, l.find? (fun d => d._id == P) = some pd ∧ pd ∈ l ∧ pd._id = P := by
  obtain ⟨d0, hd0, hd0id⟩ := hP
  have hsome : (l.find? (fun d => d._id == P)).isSome :=
    List.find?_isSome.2 ⟨d0, hd0, by rw [hd0id]; exact beq_self_eq_true P⟩
  cases hf : l.find? (fun d => d._id == P) with
  | none => rw [hf] at hsome; cases hsome
  | some pd =>
      have h1 := List.find?_some hf
      exact ⟨pd, rfl, List.mem_of_find?_eq_some hf, eq_of_beq h1⟩

theorem nodup_middle_not_mem {α : Type} (l1 l2 : List α) (a : α)
    (h : (l1 ++ a :: l2).Nodup) : a ∉ l1 ∧ a ∉ l2 := by
  rw [List.nodup_middle] at h
  rcases List.nodup_cons.1 h with ⟨hnotin, _⟩
  exact ⟨fun h1 => hnotin (List.mem_append_left _ h1),
         fun h2 => hnotin (List.mem_append_right _ h2)⟩

namespace ShippingProfileService

theorem countP_contains_le_one_of_iff (l : List Profile) (opt P : String)
    (hnd : (l.map Profile._id).Nodup)
    (hiff : ∀ d, d ∈ l → (opt ∈ d.shipping_options ↔ d._id = P)) :
    l.countP (fun d => d.shipping_options.contains opt) ≤ 1 := by
  have hcongr : l.countP (fun d => d.shipping_options.contains opt)
      = l.countP (fun d => d._id == P) := by
    refine List.countP_congr ?_
    intro d hd
    constructor
    · intro hc
      have hdp := (hiff d hd).1 ((contains_true_iff _ _).1 hc)
      rw [hdp]
      exact beq_self_eq_true P
    · intro hb
      exact (contains_true_iff _ _).2 ((hiff d hd).2 (eq_of_beq hb))
  rw [hcongr]
  have hcount : l.countP (fun d => d._id == P) = (l.map Profile._id).count P := by
    rw [List.count_eq_countP, List.countP_map]
    rfl
  rw [hcount]
  exact List.nodup_iff_count_le_one.1 hnd P

theorem removeShippingOption_eval (st : DocStore) (profileId optionId : String)
    (profile : Profile)
    (hr : retrieve st profileId = Except.ok profile)
    (hf3 : st.updateOneFault = none) :
    removeShippingOption st profileId optionId
      = Except.ok { st with docs := updateFirst (fun d => d._id == profileId) (pullShippingOptions optionId) st.docs } := by
  unfold removeShippingOption updateOneDoc
  rw [hr, hf3]

/-- Effect of one successful `addShippingOption(P, opt)` call from a
well-formed store state: the call succeeds, preserves the stored ids and the
pending-fault state, and afterwards `opt` sits in exactly the profiles whose
id is `P` — the target holds it and, thanks to the detach step, no other
profile does. -/
theorem addShippingOption_post (soSvc : List ShippingOptionRec) (st : DocStore)
    (P opt : String)
    (hnd : (st.docs.map Profile._id).Nodup)
    (hwf : ∀ d, d ∈ st.docs → isObjectIdLike d._id = true)
    (hf1 : st.findOneFault = none) (hf2 : st.findFault = none)
    (hf3 : st.updateOneFault = none)
    (hP : ∃ d ∈ st.docs, d._id = P)
    (hso : ∃ so ∈ soSvc, so._id = opt)
    (hopt0 : opt ≠ "")
    (hexcl : st.docs.countP (fun d => d.shipping_options.contains opt) ≤ 1) :
    ∃ st', addShippingOption soSvc st P opt = Except.ok st'
      ∧ st'.docs.map Profile._id = st.docs.map Profile._id
      ∧ st'.findOneFault = none ∧ st'.findFault = none ∧ st'.updateOneFault = none
      ∧ ∀ d, d ∈ st'.docs → (opt ∈ d.shipping_options ↔ d._id = P) := by
  obtain ⟨pd, hpdfind, hpdmem, hpdid⟩ := find?_of_id_mem st.docs P hP
  have hPwf : isObjectIdLike P = true := by rw [← hpdid]; exact hwf pd hpdmem
  have hret : retrieve st P = Except.ok pd := retrieve_ok st P pd hPwf hf1 hpdfind
  obtain ⟨so, hsoeq, hsoid⟩ := soRetrieve_ok_of_mem soSvc opt hso
  cases hguard : foundTruthy (pd.shipping_options.find? (fun o => o == opt)) with
  | true =>
      have hinpd : opt ∈ pd.shipping_options := (foundTruthy_find?_true _ _ hguard).2
      refine ⟨st, ?_, rfl, hf1, hf2, hf3, ?_⟩
      · unfold addShippingOption
        rw [hret, hsoeq]
        dsimp only
        rw [hsoid, hguard, if_pos rfl]
      · intro d hd
        constructor
        · intro hop
          have hdeq : d = pd :=
            countP_le_one_unique (fun d => d.shipping_options.contains opt) st.docs hexcl
              d hd ((contains_true_iff _ _).2 hop) pd hpdmem ((contains_true_iff _ _).2 hinpd)
          rw [hdeq, hpdid]
        · intro hdid
          have hdeq : d = pd := keyed_inj st.docs hnd d hd pd hpdmem (by rw [hdid, hpdid])
          rw [hdeq]
          exact hinpd
  | false =>
      have hnotpd : opt ∉ pd.shipping_options := by
        intro hm
        have hmm := (foundTruthy_find? pd.shipping_options opt hopt0).2 hm
        rw [hguard] at hmm
        cases hmm
      have hsel : evalSelector (Selector.byShippingOption opt)
          = fun d => d.shipping_options.contains opt := by
        funext d
        rfl
      cases hfil : st.docs.filter (fun d => d.shipping_options.contains opt) with
      | nil =>
          have hnone : ∀ d, d ∈ st.docs → opt ∉ d.shipping_options := by
            intro d hd hm
            have hmem2 : d ∈ st.docs.filter (fun d => d.shipping_options.contains opt) :=
              List.mem_filter.2 ⟨hd, (contains_true_iff _ _).2 hm⟩
            rw [hfil] at hmem2
            cases hmem2
          refine ⟨{ st with docs := updateFirst (fun d => d._id == P) (pushShippingOptions opt) st.docs },
            ?_, updateFirst_map_id (fun d => d._id == P) (pushShippingOptions opt) (fun d => rfl) st.docs, hf1, hf2, hf3, ?_⟩
          · unfold addShippingOption
            rw [hret, hsoeq]
            dsimp only
            rw [hsoid, hguard, if_neg Bool.false_ne_true]
            unfold list
            rw [hf2]
            dsimp only
            rw [hsel, hfil]
            dsimp only
            unfold updateOneDoc
            simp only [hf1, hf2, hf3]
          · intro d' hd'
            have hmapU : (updateFirst (fun d => d._id == P) (pushShippingOptions opt) st.docs).map Profile._id
                = st.docs.map Profile._id :=
              updateFirst_map_id (fun d => d._id == P) (pushShippingOptions opt) (fun d => rfl) st.docs
            have hndU : ((updateFirst (fun d => d._id == P) (pushShippingOptions opt) st.docs).map Profile._id).Nodup := by
              rw [hmapU]
              exact hnd
            have hself := find?_keyed_self _ hndU d' hd'
            by_cases hdP : d'._id = P
            · have hfindP : (updateFirst (fun d => d._id == P) (pushShippingOptions opt) st.docs).find?
                  (fun x => x._id == P) = some (pushShippingOptions opt pd) := by
                rw [find?_updateFirst_self P (pushShippingOptions opt) (fun d => rfl) st.docs, hpdfind]
                rfl
              rw [hdP] at hself
              rw [hself] at hfindP
              have hd'eq : d' = pushShippingOptions opt pd := Option.some.inj hfindP
              refine ⟨fun _ => hdP, fun _ => ?_⟩
              rw [hd'eq]
              show opt ∈ pd.shipping_options ++ [opt]
              simp
            · have hfind' : (updateFirst (fun d => d._id == P) (pushShippingOptions opt) st.docs).find?
                  (fun x => x._id == d'._id) = st.docs.find? (fun x => x._id == d'._id) :=
                find?_updateFirst_other P d'._id (pushShippingOptions opt) (fun d => rfl) hdP st.docs
              rw [hfind'] at hself
              have hd'mem : d' ∈ st.docs := List.mem_of_find?_eq_some hself
              exact ⟨fun hop => absurd hop (hnone d' hd'mem), fun hdid => absurd hdid hdP⟩
      | cons h0 rest =>
          have hh0f : h0 ∈ st.docs.filter (fun d => d.shipping_options.contains opt) := by
            rw [hfil]
            exact List.mem_cons_self h0 rest
          obtain ⟨hh0mem, hh0c⟩ := List.mem_filter.1 hh0f
          have hh0opt : opt ∈ h0.shipping_options := (contains_true_iff _ _).1 hh0c
          have hh0ne : h0._id ≠ P := by
            intro heq
            have hh0pd : h0 = pd := keyed_inj st.docs hnd h0 hh0mem pd hpdmem (by rw [heq, hpdid])
            rw [hh0pd] at hh0opt
            exact hnotpd hh0opt
          have hh0wf : isObjectIdLike h0._id = true := hwf h0 hh0mem
          have hh0find : st.docs.find? (fun x => x._id == h0._id) = some h0 :=
            find?_keyed_self st.docs hnd h0 hh0mem
          have hreth0 : retrieve st h0._id = Except.ok h0 :=
            retrieve_ok st h0._id h0 hh0wf hf1 hh0find
          have hrm := removeShippingOption_eval st h0._id opt h0 hreth0 hf3
          refine ⟨{ st with docs := updateFirst (fun d => d._id == P) (pushShippingOptions opt) (updateFirst (fun d => d._id == h0._id) (pullShippingOptions opt) st.docs) }, ?_, ?_, hf1, hf2, hf3, ?_⟩
          · unfold addShippingOption
            rw [hret, hsoeq]
            dsimp only
            rw [hsoid, hguard, if_neg Bool.false_ne_true]
            unfold list
            rw [hf2]
            dsimp only
            rw [hsel, hfil]
            dsimp only
            rw [hrm]
            dsimp only
            unfold updateOneDoc
            simp only [hf1, hf2, hf3]
          · rw [updateFirst_map_id (fun d => d._id == P) (pushShippingOptions opt) (fun d => rfl)
                  (updateFirst (fun d => d._id == h0._id) (pullShippingOptions opt) st.docs),
                updateFirst_map_id (fun d => d._id == h0._id) (pullShippingOptions opt) (fun d => rfl) st.docs]
          · intro d' hd'
            have hmapD1 : ((updateFirst (fun d => d._id == h0._id) (pullShippingOptions opt) st.docs).map Profile._id)
                = st.docs.map Profile._id :=
              updateFirst_map_id (fun d => d._id == h0._id) (pullShippingOptions opt) (fun d => rfl) st.docs
            have hmapU2 : ((updateFirst (fun d => d._id == P) (pushShippingOptions opt)
                (updateFirst (fun d => d._id == h0._id) (pullShippingOptions opt) st.docs)).map Profile._id)
                = st.docs.map Profile._id := by
              rw [updateFirst_map_id (fun d => d._id == P) (pushShippingOptions opt) (fun d => rfl)
                    (updateFirst (fun d => d._id == h0._id) (pullShippingOptions opt) st.docs), hmapD1]
            have hndU2 : ((updateFirst (fun d => d._id == P) (pushShippingOptions opt)
                (updateFirst (fun d => d._id == h0._id) (pullShippingOptions opt) st.docs)).map Profile._id).Nodup := by
              rw [hmapU2]
              exact hnd
            have hself := find?_keyed_self _ hndU2 d' hd'
            by_cases hdP : d'._id = P
            · have hPneh0 : P ≠ h0._id := fun h => hh0ne h.symm
              have hfindPD1 : (updateFirst (fun d => d._id == h0._id) (pullShippingOptions opt) st.docs).find?
                  (fun x => x._id == P) = st.docs.find? (fun x => x._id == P) :=
                find?_updateFirst_other h0._id P (pullShippingOptions opt) (fun d => rfl) hPneh0 st.docs
              have hfindP : (updateFirst (fun d => d._id == P) (pushShippingOptions opt)
                  (updateFirst (fun d => d._id == h0._id) (pullShippingOptions opt) st.docs)).find?
                  (fun x => x._id == P) = some (pushShippingOptions opt pd) := by
                rw [find?_updateFirst_self P (pushShippingOptions opt) (fun d => rfl) _, hfindPD1, hpdfind]
                rfl
              rw [hdP] at hself
              rw [hself] at hfindP
              have hd'eq : d' = pushShippingOptions opt pd := Option.some.inj hfindP
              refine ⟨fun _ => hdP, fun _ => ?_⟩
              rw [hd'eq]
              show opt ∈ pd.shipping_options ++ [opt]
              simp
            · have hfU2 : (updateFirst (fun d => d._id == P) (pushShippingOptions opt)
                  (updateFirst (fun d => d._id == h0._id) (pullShippingOptions opt) st.docs)).find?
                  (fun x => x._id == d'._id)
                  = (updateFirst (fun d => d._id == h0._id) (pullShippingOptions opt) st.docs).find?
                    (fun x => x._id == d'._id) :=
                find?_updateFirst_other P d'._id (pushShippingOptions opt) (fun d => rfl) hdP _
              rw [hfU2] at hself
              by_cases hdh0 : d'._id = h0._id
              · have hfD1 : (updateFirst (fun d => d._id == h0._id) (pullShippingOptions opt) st.docs).find?
                    (fun x => x._id == h0._id) = some (pullShippingOptions opt h0) := by
                  rw [find?_updateFirst_self h0._id (pullShippingOptions opt) (fun d => rfl) st.docs, hh0find]
                  rfl
                rw [hdh0] at hself
                rw [hself] at hfD1
                have hd'eq : d' = pullShippingOptions opt h0 := Option.some.inj hfD1
                refine ⟨fun hop => ?_, fun hdid => absurd hdid hdP⟩
                rw [hd'eq] at hop
                have hbad := (List.mem_filter.1 hop).2
                simp at hbad
              · have hfD1' : (updateFirst (fun d => d._id == h0._id) (pullShippingOptions opt) st.docs).find?
                    (fun x => x._id == d'._id) = st.docs.find? (fun x => x._id == d'._id) :=
                  find?_updateFirst_other h0._id d'._id (pullShippingOptions opt) (fun d => rfl) hdh0 st.docs
                rw [hfD1'] at hself
                have hd'mem : d' ∈ st.docs := List.mem_of_find?_eq_some hself
                refine ⟨fun hop => ?_, fun hdid => absurd hdid hdP⟩
                have hd'h0 : d' = h0 :=
                  countP_le_one_unique (fun d => d.shipping_options.contains opt) st.docs hexcl
                    d' hd'mem ((contains_true_iff _ _).2 hop) h0 hh0mem hh0c
                exact absurd (by rw [hd'h0]) hdh0

/-- C3: the exclusivity invariant under serial reassignment.  From any
well-formed store state (unique well-formed ids, no pending storage faults,
both profiles present, the option known to the collaborator with a non-empty
id, and the option held by at most one profile), `addShippingOption(A, opt)`
followed serially by `addShippingOption(B, opt)` succeeds, leaves `opt` a
member of profile B's option set and absent from profile A's, and preserves
the invariant that `opt` appears in at most one profile's option set. -/
theorem addShippingOption_exclusivity (soSvc : List ShippingOptionRec)
    (st : DocStore) (A B opt : String) (hAB : A ≠ B)
    (hnd : (st.docs.map Profile._id).Nodup)
    (hwf : ∀ d, d ∈ st.docs → isObjectIdLike d._id = true)
    (hf1 : st.findOneFault = none) (hf2 : st.findFault = none)
    (hf3 : st.updateOneFault = none)
    (hA : ∃ d ∈ st.docs, d._id = A) (hB : ∃ d ∈ st.docs, d._id = B)
    (hso : ∃ so ∈ soSvc, so._id = opt) (hopt0 : opt ≠ "")
    (hexcl : st.docs.countP (fun d => d.shipping_options.contains opt) ≤ 1) :
    ∃ st1 st2,
      addShippingOption soSvc st A opt = Except.ok st1
      ∧ addShippingOption soSvc st1 B opt = Except.ok st2
      ∧ (∀ d, d ∈ st2.docs → d._id = B → opt ∈ d.shipping_options)
      ∧ (∀ d, d ∈ st2.docs → d._id = A → opt ∉ d.shipping_options)
      ∧ st2.docs.countP (fun d => d.shipping_options.contains opt) ≤ 1 := by
  obtain ⟨st1, heval1, hmap1, hg1, hg2, hg3, hiff1⟩ :=
    addShippingOption_post soSvc st A opt hnd hwf hf1 hf2 hf3 hA hso hopt0 hexcl
  have hnd1 : (st1.docs.map Profile._id).Nodup := by rw [hmap1]; exact hnd
  have hwf1 : ∀ d, d ∈ st1.docs → isObjectIdLike d._id = true := by
    intro d hd
    obtain ⟨d0, hd0, hid⟩ := id_mem_exists st.docs st1.docs hmap1 d hd
    rw [← hid]
    exact hwf d0 hd0
  have hB1 : ∃ d ∈ st1.docs, d._id = B := by
    obtain ⟨d0, hd0, hid⟩ := hB
    have hmem : B ∈ st1.docs.map Profile._id := by
      rw [hmap1, ← hid]
      exact List.mem_map_of_mem Profile._id hd0
    obtain ⟨d, hd, hdid⟩ := List.mem_map.1 hmem
    exact ⟨d, hd, hdid⟩
  have hexcl1 : st1.docs.countP (fun d => d.shipping_options.contains opt) ≤ 1 :=
    countP_contains_le_one_of_iff st1.docs opt A hnd1 hiff1
  obtain ⟨st2, heval2, hmap2, _, _, _, hiff2⟩ :=
    addShippingOption_post soSvc st1 B opt hnd1 hwf1 hg1 hg2 hg3 hB1 hso hopt0 hexcl1
  have hnd2 : (st2.docs.map Profile._id).Nodup := by rw [hmap2]; exact hnd1
  refine ⟨st1, st2, heval1, heval2, ?_, ?_,
    countP_contains_le_one_of_iff st2.docs opt B hnd2 hiff2⟩
  · intro d hd hdB
    exact (hiff2 d hd).2 hdB
  · intro d hd hdA hop
    have hdB := (hiff2 d hd).1 hop
    rw [hdA] at hdB
    exact hAB hdB

/-- Shipping-option collaborator fixture holding the option `exOptF`. -/
def exSoSvc : List ShippingOptionRec := [{ _id := exOptF, name := "Free Shipping" }]

/-- Store with profiles "default1" and "default2", neither holding any
shipping option yet. -/
def exStoreNoOpts : DocStore :=
  { docs := [{ _id := exIdA, name := "default1", products := [exProdX], shipping_options := [] },
             { _id := exIdB, name := "default2", products := [exProdY], shipping_options := [] }] }

/-- C3 witness: on the concrete two-profile store, assigning `exOptF` to
profile "default1" and then to profile "default2" (serially) lands the
option in "default2" only. -/
theorem addShippingOption_exclusivity_witness :
    ∃ st1 st2,
      addShippingOption exSoSvc exStoreNoOpts exIdA exOptF = Except.ok st1
      ∧ addShippingOption exSoSvc st1 exIdB exOptF = Except.ok st2
      ∧ (∀ d, d ∈ st2.docs → d._id = exIdB → exOptF ∈ d.shipping_options)
      ∧ (∀ d, d ∈ st2.docs → d._id = exIdA → exOptF ∉ d.shipping_options)
      ∧ st2.docs.countP (fun d => d.shipping_options.contains exOptF) ≤ 1 :=
  addShippingOption_exclusivity exSoSvc exStoreNoOpts exIdA exIdB exOptF
    (by decide) (by decide) (by decide) (by rfl) (by rfl) (by rfl)
    (by decide) (by decide) (by decide) (by decide) (by decide)

end ShippingProfileService

end Medusa
